import Mathlib

/-!
Shallow embedding of `src/testplan/common/utils/monitor/__init__.py`.

The module defines `EventMonitor` (an event ledger recording start/stop
transitions of named events), `ResourceMonitor` (ledger plus periodically
sampled host metrics), and `load_monitor_from_json` (polymorphic reload).

Modelling conventions:
* Python dicts are association lists `Dict α := List (String × α)`;
  `dictSet` is `d[k] = v` (replace the value at the first occurrence of the
  key, else append) and `dictUpdate` is `d.update(e)` (iterate `e`'s items,
  setting each).  Python dicts never carry duplicate keys, so lemmas that
  need it take a `dictNodup` hypothesis.
* `time.time()` returns are modelled as explicit `ℚ` arguments threaded
  through the operations (each call site of `time.time()` in the source
  becomes one argument).
* `uuid.uuid4()` is modelled as an explicit `String` argument; its
  freshness (random 128-bit, collisions negligible) becomes a hypothesis.
* Python exceptions become `Except PyErr`; in the source every `raise`
  relevant here happens before any mutation of the object, so an `error`
  result stands for "raised, state unchanged" (made explicit by `applyOp`).
* `json.dumps` / `json.loads` are the Python standard library (external to
  this repository); they are modelled as faithful transport of the
  document produced by `to_dict`, so `dumps` yields the structured
  document and `load` consumes one.
-/

/-- Python `dict` with string keys, as an association list (insertion
order kept, first occurrence of a key is authoritative). -/
abbrev Dict (α : Type) := List (String × α)

/-- `d[k]` lookup: value at the first occurrence of `k`, if any. -/
def dictLookup {α : Type} : Dict α → String → Option α
  | [], _ => none
  | (k', v) :: rest, k => if k' = k then some v else dictLookup rest k

/-- Python `k in d`. -/
def dictContains {α : Type} (d : Dict α) (k : String) : Bool :=
  (dictLookup d k).isSome

/-- Python `d[k] = v`: replace the value at the first occurrence of `k`
keeping its position, else append the new entry at the end. -/
def dictSet {α : Type} : Dict α → String → α → Dict α
  | [], k, v => [(k, v)]
  | (k', v') :: rest, k, v =>
      if k' = k then (k', v) :: rest else (k', v') :: dictSet rest k v

/-- Python `d.update(e)`: set each item of `e` in turn. -/
def dictUpdate {α : Type} (d e : Dict α) : Dict α :=
  e.foldl (fun acc kv => dictSet acc kv.1 kv.2) d

/-- The keys of a dict. -/
def dictKeys {α : Type} (d : Dict α) : List String :=
  d.map Prod.fst

/-- Well-formedness every Python dict has: no duplicate keys. -/
abbrev dictNodup {α : Type} (d : Dict α) : Prop :=
  (dictKeys d).Nodup

/-- First-of-two options: the value the first operand holds, else the
second.  States the key-by-key result of `dict.update`. -/
def optOr {α : Type} (a b : Option α) : Option α :=
  match a with
  | some v => some v
  | none => b

/-- Python values as far as this module inspects them: `started`/`stopped`
check truthiness and `isinstance(·, dict)` of caller-supplied metadata and
otherwise only copy/merge it. -/
inductive PyVal where
  | vnone : PyVal
  | vbool : Bool → PyVal
  | vint : Int → PyVal
  | vstr : String → PyVal
  | vlist : List PyVal → PyVal
  | vdict : List (String × PyVal) → PyVal

/-- Python truthiness (`if not metadata`, `if metadata`). -/
def pyTruthy : PyVal → Bool
  | .vnone => false
  | .vbool b => b
  | .vint n => decide (n ≠ 0)
  | .vstr s => decide (s ≠ "")
  | .vlist l => !l.isEmpty
  | .vdict d => !d.isEmpty

/-- Python `isinstance(v, dict)`. -/
def pyIsDict : PyVal → Bool
  | .vdict _ => true
  | _ => false

/-- The Python exceptions this module can raise on the modelled paths:
`KeyError` (spec name: `KeyNotFound`) and `TypeError` (spec name:
`InvalidArgument`). -/
inductive PyErr where
  | keyError : String → PyErr
  | typeError : String → PyErr
deriving DecidableEq, Repr

/-- One element of an `events_data` transition list:
`{'event': event, 'time': time.time()}`. -/
structure EventEntry where
  event : String
  time : ℚ
deriving DecidableEq, Repr

/-- The mutable state of an `EventMonitor` instance that the modelled
operations read or write (`__init__`, lines 18–26; `logger`, `parent`,
`lock` and `log_directory` play no role in the verified claims; the lock
makes each operation atomic, so operations are functions on this state). -/
structure EventMonitor where
  hostname : String
  uid : String
  events_metadata : Dict (Dict PyVal)
  events_data : Dict (List EventEntry)

namespace EventMonitor

/-- `EventMonitor.__init__`: empty maps; `hostname` comes from
`socket.getfqdn()` and `uid` from `uuid.uuid4()`, both modelled as
arguments. -/
def init (hostname uid : String) : EventMonitor :=
  { hostname := hostname
    uid := uid
    events_metadata := []
    events_data := [] }

/-- `EventMonitor._record_event` (lines 71–77): ensure a list exists for
the identifier, then append `{'event': event, 'time': now}`. -/
def record_event (m : EventMonitor) (event_uuid event : String) (now : ℚ) :
    EventMonitor :=
  let prev := (dictLookup m.events_data event_uuid).getD []
  { m with
    events_data :=
      dictSet m.events_data event_uuid (prev ++ [⟨event, now⟩]) }

/-- Lines 93–98 of `started`: a falsy `metadata` gives `{}`; a dict is
copied (`metadata.copy()` — value semantics here); anything else raises
`TypeError` before any state is touched. -/
def validateMetadata (metadata : PyVal) : Except PyErr (Dict PyVal) :=
  if !pyTruthy metadata then Except.ok []
  else
    match metadata with
    | .vdict d => Except.ok d
    | _ => Except.error (PyErr.typeError
        "Event metadata must be a dictionary")

/-- `EventMonitor.started` (lines 79–102).  `event_uuid` models the fresh
`uuid.uuid4()` result and `now` the `time.time()` inside `_record_event`.
After validation, `type` is injected into the copied metadata, the result
stored and a `start` transition recorded. -/
def started (m : EventMonitor) (event_uuid event_type : String)
    (metadata : PyVal) (now : ℚ) : Except PyErr (EventMonitor × String) :=
  match validateMetadata metadata with
  | .error e => .error e
  | .ok md =>
    let md := dictSet md "type" (.vstr event_type)
    let m := { m with events_metadata := dictSet m.events_metadata event_uuid md }
    .ok (m.record_event event_uuid "start" now, event_uuid)

/-- `EventMonitor.stopped` (lines 104–118).  With truthy `metadata` the
source first evaluates `self.events_metadata[event_uuid]` — `KeyError` if
the identifier is unknown, before any mutation — and then `.update`s it
(`TypeError` if `metadata` is not a mapping).  In every non-raising path a
`stop` transition is recorded. -/
def stopped (m : EventMonitor) (event_uuid : String) (metadata : PyVal)
    (now : ℚ) : Except PyErr EventMonitor :=
  if pyTruthy metadata then
    match dictLookup m.events_metadata event_uuid with
    | none => .error (PyErr.keyError event_uuid)
    | some md =>
      match metadata with
      | .vdict d =>
        let m := { m with
          events_metadata :=
            dictSet m.events_metadata event_uuid (dictUpdate md d) }
        .ok (m.record_event event_uuid "stop" now)
      | _ => .error (PyErr.typeError "update argument must be a mapping")
  else
    .ok (m.record_event event_uuid "stop" now)

/-- `EventMonitor.attach` (lines 28–37): `dict.update` of the other
ledger's maps into this one's; `hostname` and `uid` are untouched. -/
def attach (m other : EventMonitor) : EventMonitor :=
  { m with
    events_metadata := dictUpdate m.events_metadata other.events_metadata
    events_data := dictUpdate m.events_data other.events_data }

end EventMonitor

/-- The metric channels of `ResourceMonitor.monitor_metrics`
(`__init__`, lines 198–206): seven parallel lists of numeric samples. -/
structure MonitorMetrics where
  cpu : List ℚ
  memory : List ℚ
  disk : List ℚ
  iops : List ℚ
  read : List ℚ
  write : List ℚ
  time : List ℚ
deriving DecidableEq, Repr

/-- The serialized snapshot document, as produced by `to_dict` and read
back by `load` / `load_monitor_from_json`.  In the source it is a Python
dict (conceptually JSON); presence of the two metrics-only keys is
modelled with `Option`. -/
structure MonitorDoc where
  events_metadata : Dict (Dict PyVal)
  events_data : Dict (List EventEntry)
  hostname : String
  host_metadata : Option (Dict PyVal)
  monitor_metrics : Option MonitorMetrics

namespace EventMonitor

/-- `EventMonitor.to_dict` (lines 120–132): the three ledger fields; no
metrics keys. -/
def to_dict (m : EventMonitor) : MonitorDoc :=
  { events_metadata := m.events_metadata
    events_data := m.events_data
    hostname := m.hostname
    host_metadata := none
    monitor_metrics := none }

/-- `EventMonitor.dumps` (lines 134–141): `json.dumps(self.to_dict())`.
The JSON string codec is the Python standard library (external to this
repository) and transports the document faithfully, so `dumps` is
modelled as producing the document itself. -/
def dumps (m : EventMonitor) : MonitorDoc :=
  m.to_dict

/-- `EventMonitor.load` (lines 164–180): `json.loads` for a string input
is again the external faithful codec, then `setattr(self, name, value)`
for every key of the document, overwriting `events_metadata`,
`events_data` and `hostname` (those are the keys an `EventMonitor`
document has); `uid` is not part of any document and keeps its value. -/
def load (m : EventMonitor) (doc : MonitorDoc) : EventMonitor :=
  { m with
    events_metadata := doc.events_metadata
    events_data := doc.events_data
    hostname := doc.hostname }

end EventMonitor

/-- The state of a `ResourceMonitor` instance (`__init__`, lines
190–206): the inherited ledger plus the collector's static
`host_metadata`, the seven-channel `monitor_metrics` and the polling
interval.  `_poll`, `_poll_event` and `_poll_start` belong to the thread
lifecycle, which the per-tick loop model below covers. -/
structure ResourceMonitor extends EventMonitor where
  host_metadata : Dict PyVal
  monitor_metrics : MonitorMetrics
  poll_interval : ℚ

namespace ResourceMonitor

/-- `ResourceMonitor.__init__` (lines 190–206): fresh ledger, channels
all empty, `poll_interval = 5`, `host_metadata` taken from the collector
(external; modelled as an argument). -/
def init (hostname uid : String) (collector_metadata : Dict PyVal) :
    ResourceMonitor :=
  { toEventMonitor := EventMonitor.init hostname uid
    host_metadata := collector_metadata
    monitor_metrics := ⟨[], [], [], [], [], [], []⟩
    poll_interval := 5 }

/-- `ResourceMonitor.to_dict` (lines 244–248): the inherited document
plus `host_metadata` and `monitor_metrics`. -/
def to_dict (r : ResourceMonitor) : MonitorDoc :=
  { r.toEventMonitor.to_dict with
    host_metadata := some r.host_metadata
    monitor_metrics := some r.monitor_metrics }

/-- The inherited `load`, on a `ResourceMonitor`: `setattr` for every key
present in the document; the metrics-only keys overwrite the
corresponding fields exactly when the document carries them. -/
def load (r : ResourceMonitor) (doc : MonitorDoc) : ResourceMonitor :=
  { r with
    toEventMonitor := r.toEventMonitor.load doc
    host_metadata := doc.host_metadata.getD r.host_metadata
    monitor_metrics := doc.monitor_metrics.getD r.monitor_metrics }

end ResourceMonitor

/-- Result of `load_monitor_from_json`: either variant. -/
inductive LoadedMonitor where
  | event : EventMonitor → LoadedMonitor
  | resource : ResourceMonitor → LoadedMonitor

/-- Whether a `LoadedMonitor` is the metrics-capable variant. -/
def LoadedMonitor.isResource : LoadedMonitor → Bool
  | .event _ => false
  | .resource _ => true

/-- `load_monitor_from_json` (lines 251–269): parse (external codec),
construct a `ResourceMonitor()` when the document has a `host_metadata`
key and an `EventMonitor()` otherwise, then `load` the document into it.
The fresh instances the constructors would build (hostname, random uid,
collector metadata) are modelled as arguments. -/
def load_monitor_from_json (doc : MonitorDoc) (freshE : EventMonitor)
    (freshR : ResourceMonitor) : LoadedMonitor :=
  match doc.host_metadata with
  | some _ => .resource (freshR.load doc)
  | none => .event (freshE.load doc)

/-- One observed iteration of `ResourceMonitor._monitoring` (lines
208–218): `t0` is the `time.time()` at the top of the loop, `sample` the
mapping returned by the external `self._collector.monitor()`, and `t1`
the `time.time()` taken after the appends.  The sample is stamped with
`time = t0`, each channel appends its key's value (a missing key raises
`KeyError`), and the iteration ends with `some` sleep duration exactly
when `poll_interval - (t1 - t0)` is positive, else no sleep. -/
def monitoringTick (poll_interval : ℚ) (mm : MonitorMetrics)
    (sample : Dict ℚ) (t0 t1 : ℚ) :
    Except PyErr (MonitorMetrics × Option ℚ) := do
  let s := dictSet sample "time" t0
  let getItem : String → Except PyErr ℚ := fun k =>
    match dictLookup s k with
    | some v => Except.ok v
    | none => Except.error (PyErr.keyError k)
  let c ← getItem "cpu"
  let me ← getItem "memory"
  let d ← getItem "disk"
  let io ← getItem "iops"
  let r ← getItem "read"
  let w ← getItem "write"
  let t ← getItem "time"
  let mm : MonitorMetrics :=
    { cpu := mm.cpu ++ [c]
      memory := mm.memory ++ [me]
      disk := mm.disk ++ [d]
      iops := mm.iops ++ [io]
      read := mm.read ++ [r]
      write := mm.write ++ [w]
      time := mm.time ++ [t] }
  let sleep_time := poll_interval - (t1 - t0)
  return (mm, if sleep_time > 0 then some sleep_time else none)

/-- The inputs of one loop iteration that come from outside the metrics
state: the collector's sample and the two clock readings. -/
structure TickInput where
  sample : Dict ℚ
  t0 : ℚ
  t1 : ℚ

/-- The sampling loop run for a list of iterations (the `while
self._poll_start` loop, with the flag cleared after the last one);
a `KeyError` in an iteration terminates the loop. -/
def runTicks (poll_interval : ℚ) (mm : MonitorMetrics) :
    List TickInput → Except PyErr MonitorMetrics
  | [] => .ok mm
  | tk :: rest =>
    match monitoringTick poll_interval mm tk.sample tk.t0 tk.t1 with
    | .error e => .error e
    | .ok (mm', _) => runTicks poll_interval mm' rest

/-- The keys `_metrics` must contain beyond the stamped `time` for the
per-channel appends to succeed. -/
def requiredKeys : List String :=
  ["cpu", "memory", "disk", "iops", "read", "write"]

/-- The collector's sample carries every required channel key. -/
def hasRequiredKeys (sample : Dict ℚ) : Bool :=
  requiredKeys.all (fun k => dictContains sample k)

/-- All seven channels of a `MonitorMetrics` have length `n`. -/
def channelsLen (mm : MonitorMetrics) (n : ℕ) : Prop :=
  mm.cpu.length = n ∧ mm.memory.length = n ∧ mm.disk.length = n ∧
  mm.iops.length = n ∧ mm.read.length = n ∧ mm.write.length = n ∧
  mm.time.length = n

/-- One ledger operation, with its oracle inputs (fresh uuid, clock).
`opAttach` carries the other ledger merged in. -/
inductive Op where
  | opStarted : String → String → PyVal → ℚ → Op
  | opStopped : String → PyVal → ℚ → Op
  | opAttach : EventMonitor → Op

/-- Apply one operation to a ledger.  When the operation raises, the
state is unchanged: in the source both `raise` sites and the `KeyError`
lookup in `stopped` occur before any mutation. -/
def applyOp (m : EventMonitor) : Op → EventMonitor
  | .opStarted u t md now =>
    match m.started u t md now with
    | .ok (m', _) => m'
    | .error _ => m
  | .opStopped u md now =>
    match m.stopped u md now with
    | .ok m' => m'
    | .error _ => m
  | .opAttach o => m.attach o

/-- The invariant of claim C2, as the source state admits deciding it:
every identifier with an `events_data` entry also has an
`events_metadata` entry. -/
def ledgerInv (m : EventMonitor) : Bool :=
  m.events_data.all (fun kv => dictContains m.events_metadata kv.1)

/-- Side condition of one operation at the state it runs in: a `stopped`
call targets an identifier already present in the metadata map, and a
merged-in ledger itself satisfies the invariant. -/
def opSafe (m : EventMonitor) : Op → Bool
  | .opStarted _ _ _ _ => true
  | .opStopped u _ _ => dictContains m.events_metadata u
  | .opAttach o => ledgerInv o

/-- Every operation of the sequence satisfies its side condition at the
state it is applied to. -/
def safeRun (m : EventMonitor) : List Op → Bool
  | [] => true
  | o :: rest => opSafe m o && safeRun (applyOp m o) rest

/-- A heap of `EventMonitor` objects, keyed by reference, to state
frame properties of `attach`: the method body (lines 36–37) assigns only
to `self`'s fields. -/
def ObjHeap := Dict EventMonitor

/-- `selfRef.attach(otherRef)` on a heap: read both objects, write the
merged state back to `selfRef` only. -/
def attachRef (h : ObjHeap) (selfRef otherRef : String) : ObjHeap :=
  match dictLookup h selfRef, dictLookup h otherRef with
  | some s, some o => dictSet h selfRef (s.attach o)
  | _, _ => h

/-- A concrete ledger used as `self` in witnesses: one identifier of its
own plus the shared identifier `shared`. -/
def demoLedgerA : EventMonitor :=
  { hostname := "hA", uid := "uA",
    events_metadata := [("only", [("y", PyVal.vint 9)]),
                        ("shared", [("x", PyVal.vint 1)])],
    events_data := [] }

/-- A concrete ledger used as `other` in witnesses: carries the shared
identifier `shared` with different metadata. -/
def demoLedgerB : EventMonitor :=
  { hostname := "hB", uid := "uB",
    events_metadata := [("shared", [("x", PyVal.vint 2)])],
    events_data := [("shared", [⟨"start", 3⟩])] }

/-! ## Dictionary lemmas -/

theorem dictLookup_dictSet {α : Type} (d : Dict α) (k : String) (v : α)
    (u : String) :
    dictLookup (dictSet d k v) u = if k = u then some v else dictLookup d u := by
  induction d with
  | nil => simp [dictSet, dictLookup]
  | cons kv rest ih =>
    obtain ⟨k0, v0⟩ := kv
    by_cases h : k0 = k
    · subst h
      by_cases h' : k0 = u <;> simp [dictSet, dictLookup, h']
    · by_cases h' : k0 = u
      · subst h'
        have hku : ¬ k = k0 := fun hk => h hk.symm
        simp [dictSet, dictLookup, h, hku]
      · simp [dictSet, dictLookup, h, h', ih]

theorem dictContains_dictSet {α : Type} (d : Dict α) (k : String) (v : α)
    (u : String) :
    dictContains (dictSet d k v) u = (dictContains d u || decide (k = u)) := by
  by_cases h : k = u <;>
    simp [dictContains, dictLookup_dictSet, h]

theorem dictContains_cons {α : Type} (k0 : String) (v0 : α) (rest : Dict α)
    (u : String) :
    dictContains ((k0, v0) :: rest) u = (decide (k0 = u) || dictContains rest u) := by
  by_cases h : k0 = u <;> simp [dictContains, dictLookup, h]

theorem dictContains_dictUpdate {α : Type} (e d : Dict α) (u : String) :
    dictContains (dictUpdate d e) u = (dictContains d u || dictContains e u) := by
  induction e generalizing d with
  | nil => simp [dictUpdate, dictContains, dictLookup]
  | cons kv rest ih =>
    obtain ⟨k0, v0⟩ := kv
    show dictContains (dictUpdate (dictSet d k0 v0) rest) u = _
    rw [ih, dictContains_dictSet, dictContains_cons]
    by_cases h : k0 = u <;> simp [h]

theorem dictKeys_cons {α : Type} (k0 : String) (v0 : α) (rest : Dict α) :
    dictKeys ((k0, v0) :: rest) = k0 :: dictKeys rest := rfl

theorem dictContains_iff_mem {α : Type} (d : Dict α) (u : String) :
    dictContains d u = true ↔ u ∈ dictKeys d := by
  induction d with
  | nil => simp [dictContains, dictLookup, dictKeys]
  | cons kv rest ih =>
    obtain ⟨k0, v0⟩ := kv
    rw [dictContains_cons, dictKeys_cons]
    by_cases h : k0 = u
    · subst h
      simp
    · have h' : ¬ u = k0 := fun hh => h hh.symm
      simp [h, h', ih]

theorem dictLookup_eq_none_of_not_mem {α : Type} (d : Dict α) (u : String)
    (h : u ∉ dictKeys d) : dictLookup d u = none := by
  cases hl : dictLookup d u with
  | none => rfl
  | some v =>
    exact absurd ((dictContains_iff_mem d u).1 (by simp [dictContains, hl])) h

theorem dictLookup_dictUpdate {α : Type} (e d : Dict α) (u : String)
    (he : dictNodup e) :
    dictLookup (dictUpdate d e) u =
      optOr (dictLookup e u) (dictLookup d u) := by
  induction e generalizing d with
  | nil => simp [dictUpdate, dictLookup, optOr]
  | cons kv rest ih =>
    obtain ⟨k0, v0⟩ := kv
    have hk0 : k0 ∉ dictKeys rest := by
      simp [dictNodup, dictKeys] at he
      simpa [dictKeys] using he.1
    have hrest : dictNodup rest := by
      simp [dictNodup, dictKeys] at he ⊢
      exact he.2
    show dictLookup (dictUpdate (dictSet d k0 v0) rest) u = _
    rw [ih _ hrest]
    by_cases h : k0 = u
    · subst h
      rw [dictLookup_eq_none_of_not_mem rest k0 hk0]
      simp [optOr, dictLookup, dictLookup_dictSet]
    · cases hr : dictLookup rest u with
      | some w => simp [optOr, dictLookup, h, hr]
      | none => simp [optOr, dictLookup, h, hr, dictLookup_dictSet]

/-! ## Ledger lemmas -/

theorem ledgerInv_iff (m : EventMonitor) :
    ledgerInv m = true ↔
      ∀ u, dictContains m.events_data u = true →
        dictContains m.events_metadata u = true := by
  unfold ledgerInv
  rw [List.all_eq_true]
  constructor
  · intro h u hu
    have hm := (dictContains_iff_mem _ _).1 hu
    simp only [dictKeys, List.mem_map] at hm
    rcases hm with ⟨kv, hkv, hfst⟩
    have := h kv hkv
    rwa [hfst] at this
  · intro h kv hkv
    apply h
    rw [dictContains_iff_mem]
    simp only [dictKeys, List.mem_map]
    exact ⟨kv, hkv, rfl⟩

namespace EventMonitor

theorem record_event_def (m : EventMonitor) (u e : String) (now : ℚ) :
    m.record_event u e now =
      { m with
        events_data := dictSet m.events_data u
          (((dictLookup m.events_data u).getD []) ++ [⟨e, now⟩]) } := rfl

theorem started_eq_error (m : EventMonitor) (u t : String) (md : PyVal)
    (now : ℚ) (e : PyErr) (hv : validateMetadata md = Except.error e) :
    m.started u t md now = Except.error e := by
  unfold started
  rw [hv]

theorem started_eq_ok (m : EventMonitor) (u t : String) (md : PyVal)
    (now : ℚ) (d0 : Dict PyVal) (hv : validateMetadata md = Except.ok d0) :
    m.started u t md now =
      Except.ok
        (({ m with
            events_metadata := dictSet m.events_metadata u
              (dictSet d0 "type" (PyVal.vstr t)) }).record_event u "start" now,
         u) := by
  unfold started
  rw [hv]

theorem stopped_eq_error_key (m : EventMonitor) (u : String) (md : PyVal)
    (now : ℚ) (htr : pyTruthy md = true)
    (hlk : dictLookup m.events_metadata u = none) :
    m.stopped u md now = Except.error (PyErr.keyError u) := by
  unfold stopped
  rw [htr, hlk]
  rfl

theorem stopped_eq_ok_truthy (m : EventMonitor) (u : String) (dd : Dict PyVal)
    (now : ℚ) (md0 : Dict PyVal)
    (htr : pyTruthy (PyVal.vdict dd) = true)
    (hlk : dictLookup m.events_metadata u = some md0) :
    m.stopped u (PyVal.vdict dd) now =
      Except.ok
        (({ m with
            events_metadata := dictSet m.events_metadata u
              (dictUpdate md0 dd) }).record_event u "stop" now) := by
  unfold stopped
  rw [htr, hlk]
  rfl

theorem stopped_eq_ok_falsy (m : EventMonitor) (u : String) (md : PyVal)
    (now : ℚ) (htr : pyTruthy md = false) :
    m.stopped u md now = Except.ok (m.record_event u "stop" now) := by
  unfold stopped
  rw [htr]
  rfl

end EventMonitor

theorem ledgerInv_step (m : EventMonitor) (o : Op)
    (hm : ledgerInv m = true) (ho : opSafe m o = true) :
    ledgerInv (applyOp m o) = true := by
  rw [ledgerInv_iff] at hm
  cases o with
  | opStarted u t md now =>
    cases hv : EventMonitor.validateMetadata md with
    | error e =>
      simp only [applyOp, EventMonitor.started_eq_error m u t md now e hv]
      exact (ledgerInv_iff m).2 hm
    | ok d0 =>
      simp only [applyOp, EventMonitor.started_eq_ok m u t md now d0 hv,
        EventMonitor.record_event_def]
      rw [ledgerInv_iff]
      intro x hx
      simp only at hx ⊢
      rw [dictContains_dictSet] at hx ⊢
      rcases Bool.or_eq_true_iff.1 hx with h1 | h1
      · rw [hm x h1]
        simp
      · rw [h1]
        simp
  | opStopped u md now =>
    simp only [opSafe] at ho
    rcases hlk : dictLookup m.events_metadata u with - | md0
    · rw [dictContains, hlk] at ho
      cases ho
    cases htr : pyTruthy md with
    | false =>
      simp only [applyOp, EventMonitor.stopped_eq_ok_falsy m u md now htr,
        EventMonitor.record_event_def]
      rw [ledgerInv_iff]
      intro x hx
      simp only at hx ⊢
      rw [dictContains_dictSet] at hx
      rcases Bool.or_eq_true_iff.1 hx with h1 | h1
      · exact hm x h1
      · have hux : u = x := of_decide_eq_true h1
        rw [← hux, dictContains, hlk]
        rfl
    | true =>
      cases md with
      | vdict dd =>
        simp only [applyOp, EventMonitor.stopped_eq_ok_truthy m u dd now md0 htr hlk,
          EventMonitor.record_event_def]
        rw [ledgerInv_iff]
        intro x hx
        simp only at hx ⊢
        rw [dictContains_dictSet] at hx ⊢
        rcases Bool.or_eq_true_iff.1 hx with h1 | h1
        · rw [hm x h1]
          simp
        · rw [h1]
          simp
      | vnone => cases htr
      | vbool b =>
        have : m.stopped u (PyVal.vbool b) now =
            Except.error (PyErr.typeError "update argument must be a mapping") := by
          unfold EventMonitor.stopped
          rw [htr, hlk]
          rfl
        simp only [applyOp, this]
        exact (ledgerInv_iff m).2 hm
      | vint n =>
        have : m.stopped u (PyVal.vint n) now =
            Except.error (PyErr.typeError "update argument must be a mapping") := by
          unfold EventMonitor.stopped
          rw [htr, hlk]
          rfl
        simp only [applyOp, this]
        exact (ledgerInv_iff m).2 hm
      | vstr s =>
        have : m.stopped u (PyVal.vstr s) now =
            Except.error (PyErr.typeError "update argument must be a mapping") := by
          unfold EventMonitor.stopped
          rw [htr, hlk]
          rfl
        simp only [applyOp, this]
        exact (ledgerInv_iff m).2 hm
      | vlist l =>
        have : m.stopped u (PyVal.vlist l) now =
            Except.error (PyErr.typeError "update argument must be a mapping") := by
          unfold EventMonitor.stopped
          rw [htr, hlk]
          rfl
        simp only [applyOp, this]
        exact (ledgerInv_iff m).2 hm
  | opAttach o =>
    simp only [opSafe] at ho
    rw [ledgerInv_iff] at ho
    rw [ledgerInv_iff]
    intro x hx
    simp only [applyOp, EventMonitor.attach] at hx ⊢
    rw [dictContains_dictUpdate] at hx ⊢
    rcases Bool.or_eq_true_iff.1 hx with h1 | h1
    · rw [hm x h1]
      simp
    · rw [ho x h1]
      simp

theorem ledgerInv_run (m : EventMonitor) (ops : List Op)
    (hm : ledgerInv m = true) (hs : safeRun m ops = true) :
    ledgerInv (ops.foldl applyOp m) = true := by
  induction ops generalizing m with
  | nil => simpa using hm
  | cons o rest ih =>
    rcases Bool.and_eq_true_iff.1 hs with ⟨h1, h2⟩
    exact ih (applyOp m o) (ledgerInv_step m o hm h1) h2

/-! ## Claims -/

/-- C1 (counterexample): the claim says `stopped` on an unknown identifier
fails with `KeyError` for every optional metadata argument; but with the
metadata argument absent (`None`, the default) the call succeeds and
appends a `stop` transition for the unknown identifier, changing
`events_data`. -/
theorem claim_C1_counterexample :
    dictContains (EventMonitor.init "host" "uid1").events_metadata "missing" = false ∧
    (EventMonitor.init "host" "uid1").stopped "missing" PyVal.vnone 0 =
      Except.ok
        { hostname := "host", uid := "uid1", events_metadata := [],
          events_data := [("missing", [⟨"stop", 0⟩])] } :=
  ⟨rfl, rfl⟩

/-- C1 (amended): for every identifier not present in `events_metadata`
and every supplied truthy metadata argument, `stopped` fails with
`KeyError` (the `KeyNotFound` of the spec) and leaves the ledger state
unchanged; the `KeyError` lookup precedes every mutation in the source,
which `applyOp` makes explicit. -/
theorem claim_C1_stopped_unknown (m : EventMonitor) (u : String)
    (md : PyVal) (now : ℚ)
    (hu : dictContains m.events_metadata u = false)
    (hmd : pyTruthy md = true) :
    m.stopped u md now = Except.error (PyErr.keyError u) ∧
    applyOp m (Op.opStopped u md now) = m := by
  have hlk : dictLookup m.events_metadata u = none := by
    cases hl : dictLookup m.events_metadata u with
    | none => rfl
    | some v => simp [dictContains, hl] at hu
  have h1 := EventMonitor.stopped_eq_error_key m u md now hmd hlk
  exact ⟨h1, by simp only [applyOp, h1]⟩

/-- Witness for C1 (amended) at a concrete unknown identifier and a
nonempty metadata dict. -/
theorem claim_C1_witness :
    dictContains (EventMonitor.init "h" "u").events_metadata "ghost" = false ∧
    pyTruthy (PyVal.vdict [("k", PyVal.vint 1)]) = true ∧
    ((EventMonitor.init "h" "u").stopped "ghost"
        (PyVal.vdict [("k", PyVal.vint 1)]) 0 =
      Except.error (PyErr.keyError "ghost") ∧
     applyOp (EventMonitor.init "h" "u")
        (Op.opStopped "ghost" (PyVal.vdict [("k", PyVal.vint 1)]) 0) =
      EventMonitor.init "h" "u") :=
  ⟨rfl, rfl,
   claim_C1_stopped_unknown (EventMonitor.init "h" "u") "ghost"
     (PyVal.vdict [("k", PyVal.vint 1)]) 0 rfl rfl⟩

/-- C2 (counterexample): the sequence consisting of the single operation
`stopped(unknown, None)` runs on a ledger satisfying the invariant (no
merge involved) yet produces a state where `events_data` has a key
missing from `events_metadata`. -/
theorem claim_C2_counterexample :
    ledgerInv (EventMonitor.init "host" "uid1") = true ∧
    ledgerInv (applyOp (EventMonitor.init "host" "uid1")
      (Op.opStopped "ghost" PyVal.vnone 0)) = false :=
  ⟨rfl, rfl⟩

/-- C2 (amended): after any sequence of `started`, `stopped` and `attach`
operations in which every `stopped` call targets an identifier already
present in the metadata map at the time of the call and every merged-in
ledger satisfies the invariant, a ledger satisfying the invariant
(every `events_data` key has an `events_metadata` entry) still satisfies
it. -/
theorem claim_C2_invariant (m : EventMonitor) (ops : List Op)
    (hm : ledgerInv m = true) (hs : safeRun m ops = true) :
    ledgerInv (ops.foldl applyOp m) = true :=
  ledgerInv_run m ops hm hs

/-- Witness for C2 (amended): start, stop with metadata update, then
merge an empty ledger. -/
theorem claim_C2_witness :
    ledgerInv (EventMonitor.init "h" "u") = true ∧
    safeRun (EventMonitor.init "h" "u")
      [Op.opStarted "e1" "Pool" PyVal.vnone 0,
       Op.opStopped "e1" (PyVal.vdict [("passed", PyVal.vbool true)]) 1,
       Op.opAttach (EventMonitor.init "h2" "u2")] = true ∧
    ledgerInv
      ([Op.opStarted "e1" "Pool" PyVal.vnone 0,
        Op.opStopped "e1" (PyVal.vdict [("passed", PyVal.vbool true)]) 1,
        Op.opAttach (EventMonitor.init "h2" "u2")].foldl applyOp
        (EventMonitor.init "h" "u")) = true :=
  ⟨rfl, rfl,
   claim_C2_invariant (EventMonitor.init "h" "u")
     [Op.opStarted "e1" "Pool" PyVal.vnone 0,
      Op.opStopped "e1" (PyVal.vdict [("passed", PyVal.vbool true)]) 1,
      Op.opAttach (EventMonitor.init "h2" "u2")] rfl rfl⟩

/-- C3 (counterexample): the claim says every supplied non-mapping
metadata raises; but the supplied non-mapping falsy value `0` takes the
`not metadata` branch and `started` succeeds, storing `{'type': ...}`. -/
theorem claim_C3_counterexample :
    pyIsDict (PyVal.vint 0) = false ∧
    (EventMonitor.init "host" "uid1").started "ev1" "Pool" (PyVal.vint 0) 0 =
      Except.ok
        ({ hostname := "host", uid := "uid1",
           events_metadata := [("ev1", [("type", PyVal.vstr "Pool")])],
           events_data := [("ev1", [⟨"start", 0⟩])] }, "ev1") :=
  ⟨rfl, rfl⟩

/-- C3 (amended): `started` fails with `TypeError` (the spec's
`InvalidArgument`) and stores nothing exactly for supplied metadata that
is truthy and not a mapping; for absent, falsy, or mapping metadata it
does not raise. -/
theorem claim_C3_started_validation (m : EventMonitor) (u t : String)
    (md : PyVal) (now : ℚ) :
    (pyTruthy md = true → pyIsDict md = false →
       m.started u t md now = Except.error (PyErr.typeError
         "Event metadata must be a dictionary") ∧
       applyOp m (Op.opStarted u t md now) = m) ∧
    ((pyTruthy md = false ∨ pyIsDict md = true) →
       ∃ m', m.started u t md now = Except.ok (m', u)) := by
  constructor
  · intro htr hnd
    have hv : EventMonitor.validateMetadata md = Except.error
        (PyErr.typeError "Event metadata must be a dictionary") := by
      unfold EventMonitor.validateMetadata
      rw [htr]
      cases md with
      | vdict d => cases hnd
      | vnone => rfl
      | vbool b => rfl
      | vint n => rfl
      | vstr s => rfl
      | vlist l => rfl
    have h1 := EventMonitor.started_eq_error m u t md now _ hv
    exact ⟨h1, by simp only [applyOp, h1]⟩
  · intro h
    rcases h with htr | hd
    · exact ⟨_, EventMonitor.started_eq_ok m u t md now []
        (by unfold EventMonitor.validateMetadata; rw [htr]; rfl)⟩
    · cases md with
      | vdict d =>
        cases htr : pyTruthy (PyVal.vdict d) with
        | false => exact ⟨_, EventMonitor.started_eq_ok m u t _ now []
            (by unfold EventMonitor.validateMetadata; rw [htr]; rfl)⟩
        | true => exact ⟨_, EventMonitor.started_eq_ok m u t _ now d
            (by unfold EventMonitor.validateMetadata; rw [htr]; rfl)⟩
      | vnone => cases hd
      | vbool b => cases hd
      | vint n => cases hd
      | vstr s => cases hd
      | vlist l => cases hd

/-- Witness for C3 (amended) at the truthy non-mapping `"oops"`. -/
theorem claim_C3_witness :
    pyTruthy (PyVal.vstr "oops") = true ∧
    pyIsDict (PyVal.vstr "oops") = false ∧
    ((EventMonitor.init "h" "u").started "e9" "Pool" (PyVal.vstr "oops") 0 =
       Except.error (PyErr.typeError "Event metadata must be a dictionary") ∧
     applyOp (EventMonitor.init "h" "u")
        (Op.opStarted "e9" "Pool" (PyVal.vstr "oops") 0) =
       EventMonitor.init "h" "u") :=
  ⟨by decide, rfl,
   (claim_C3_started_validation (EventMonitor.init "h" "u") "e9" "Pool"
     (PyVal.vstr "oops") 0).1 (by decide) rfl⟩

/-- C4: for every valid `started(event_type, metadata)` call — `metadata`
a mapping here, the fresh `uuid.uuid4()` modelled by the hypothesis that
`event_uuid` occurs in neither map (identifiers previously returned by
this instance are always stored in both) — the returned identifier is
that fresh one, the stored metadata is the copy of the caller's mapping
with `type` set to the event type (the caller's own mapping is untouched:
the source copies before inserting), the transitions list is the single
`start` entry stamped `now`, and no other identifier's entries change. -/
theorem claim_C4_started_effect (m : EventMonitor) (u t : String)
    (d : Dict PyVal) (now : ℚ)
    (_hfresh_md : dictContains m.events_metadata u = false)
    (hfresh_data : dictContains m.events_data u = false) :
    ∃ m', m.started u t (PyVal.vdict d) now = Except.ok (m', u) ∧
      dictLookup m'.events_metadata u = some (dictSet d "type" (PyVal.vstr t)) ∧
      dictLookup m'.events_data u = some [⟨"start", now⟩] ∧
      (∀ x, x ≠ u → dictLookup m'.events_metadata x = dictLookup m.events_metadata x) ∧
      (∀ x, x ≠ u → dictLookup m'.events_data x = dictLookup m.events_data x) ∧
      m'.hostname = m.hostname ∧ m'.uid = m.uid := by
  have hdata : dictLookup m.events_data u = none := by
    cases hl : dictLookup m.events_data u with
    | none => rfl
    | some l => simp [dictContains, hl] at hfresh_data
  have hv : EventMonitor.validateMetadata (PyVal.vdict d) = Except.ok d := by
    unfold EventMonitor.validateMetadata
    cases d with
    | nil => rfl
    | cons kv rest => rfl
  refine ⟨_, EventMonitor.started_eq_ok m u t _ now d hv, ?_, ?_, ?_, ?_, rfl, rfl⟩
  · rw [EventMonitor.record_event_def]
    simp only
    rw [dictLookup_dictSet]
    simp
  · rw [EventMonitor.record_event_def]
    simp only
    rw [dictLookup_dictSet]
    simp [hdata]
  · intro x hx
    rw [EventMonitor.record_event_def]
    simp only
    rw [dictLookup_dictSet, if_neg (fun h => hx h.symm)]
  · intro x hx
    rw [EventMonitor.record_event_def]
    simp only
    rw [dictLookup_dictSet, if_neg (fun h => hx h.symm)]

/-- Witness for C4 at a concrete fresh identifier and metadata mapping. -/
theorem claim_C4_witness :
    dictContains (EventMonitor.init "h" "u").events_metadata "e1" = false ∧
    dictContains (EventMonitor.init "h" "u").events_data "e1" = false ∧
    (∃ m', (EventMonitor.init "h" "u").started "e1" "Pool"
        (PyVal.vdict [("name", PyVal.vstr "t1")]) 7 = Except.ok (m', "e1") ∧
      dictLookup m'.events_metadata "e1" =
        some (dictSet [("name", PyVal.vstr "t1")] "type" (PyVal.vstr "Pool")) ∧
      dictLookup m'.events_data "e1" = some [⟨"start", 7⟩] ∧
      (∀ x, x ≠ "e1" →
        dictLookup m'.events_metadata x =
          dictLookup (EventMonitor.init "h" "u").events_metadata x) ∧
      (∀ x, x ≠ "e1" →
        dictLookup m'.events_data x =
          dictLookup (EventMonitor.init "h" "u").events_data x) ∧
      m'.hostname = (EventMonitor.init "h" "u").hostname ∧
      m'.uid = (EventMonitor.init "h" "u").uid) :=
  ⟨rfl, rfl,
   claim_C4_started_effect (EventMonitor.init "h" "u") "e1" "Pool"
     [("name", PyVal.vstr "t1")] 7 rfl rfl⟩

/-- C5: reloading the serialized snapshot (`load` applied to the output
of `dumps`, the JSON string codec in between being the faithful external
standard library) reproduces `events_metadata` and `events_data` exactly
— in particular the order of each identifier's transitions list is
preserved, since the lists themselves are equal. -/
theorem claim_C5_roundtrip (m fresh : EventMonitor) :
    (fresh.load m.dumps).events_metadata = m.events_metadata ∧
    (fresh.load m.dumps).events_data = m.events_data :=
  ⟨rfl, rfl⟩

/-- C6: `load_monitor_from_json` reconstructs a `ResourceMonitor`
exactly when the document carries a `host_metadata` key and an
`EventMonitor` otherwise, and the document's fields are restored onto
the reconstructed object. -/
theorem claim_C6_reload_dispatch (doc : MonitorDoc) (freshE : EventMonitor)
    (freshR : ResourceMonitor) :
    (load_monitor_from_json doc freshE freshR).isResource =
      doc.host_metadata.isSome ∧
    (match load_monitor_from_json doc freshE freshR with
     | .event m => m.events_metadata = doc.events_metadata ∧
         m.events_data = doc.events_data ∧ m.hostname = doc.hostname
     | .resource r => r.events_metadata = doc.events_metadata ∧
         r.events_data = doc.events_data ∧ r.hostname = doc.hostname ∧
         some r.host_metadata = doc.host_metadata ∧
         ∀ mm, doc.monitor_metrics = some mm → r.monitor_metrics = mm) := by
  cases hh : doc.host_metadata with
  | none =>
    constructor
    · simp [load_monitor_from_json, hh, LoadedMonitor.isResource]
    · simp only [load_monitor_from_json, hh]
      exact ⟨rfl, rfl, rfl⟩
  | some hmv =>
    constructor
    · simp [load_monitor_from_json, hh, LoadedMonitor.isResource]
    · simp only [load_monitor_from_json, hh]
      refine ⟨rfl, rfl, rfl, ?_, ?_⟩
      · simp [ResourceMonitor.load, hh]
      · intro mm hmm
        simp [ResourceMonitor.load, hmm]

/-- Witness for C6 at a concrete document carrying `host_metadata`. -/
theorem claim_C6_witness :
    (load_monitor_from_json
        { events_metadata := [], events_data := [], hostname := "h2",
          host_metadata := some [("os", PyVal.vstr "linux")],
          monitor_metrics := none }
        (EventMonitor.init "h" "u")
        (ResourceMonitor.init "h" "u" [])).isResource = true := by
  have h := (claim_C6_reload_dispatch
    { events_metadata := [], events_data := [], hostname := "h2",
      host_metadata := some [("os", PyVal.vstr "linux")],
      monitor_metrics := none }
    (EventMonitor.init "h" "u") (ResourceMonitor.init "h" "u" [])).1
  simpa using h

/-- C7: `attach` merges the other ledger's maps into this one's with
key-by-key overwrite where the other's entry wins on shared identifiers,
leaves identifiers present only in `self` unchanged, and leaves `self`'s
`hostname` and `uid` unchanged.  The other ledger, being a Python dict,
has no duplicate keys (`dictNodup`). -/
theorem claim_C7_attach_union (m o : EventMonitor)
    (h1 : dictNodup o.events_metadata) (h2 : dictNodup o.events_data) :
    (∀ k, dictLookup (m.attach o).events_metadata k =
       optOr (dictLookup o.events_metadata k) (dictLookup m.events_metadata k)) ∧
    (∀ k, dictLookup (m.attach o).events_data k =
       optOr (dictLookup o.events_data k) (dictLookup m.events_data k)) ∧
    (m.attach o).hostname = m.hostname ∧ (m.attach o).uid = m.uid := by
  refine ⟨?_, ?_, rfl, rfl⟩
  · intro k
    show dictLookup (dictUpdate m.events_metadata o.events_metadata) k = _
    exact dictLookup_dictUpdate o.events_metadata m.events_metadata k h1
  · intro k
    show dictLookup (dictUpdate m.events_data o.events_data) k = _
    exact dictLookup_dictUpdate o.events_data m.events_data k h2

/-- Witness for C7 on two concrete ledgers sharing the identifier
`shared` with different metadata. -/
theorem claim_C7_witness :
    dictNodup demoLedgerB.events_metadata ∧
    dictNodup demoLedgerB.events_data ∧
    ((∀ k, dictLookup (demoLedgerA.attach demoLedgerB).events_metadata k =
       optOr (dictLookup demoLedgerB.events_metadata k)
         (dictLookup demoLedgerA.events_metadata k)) ∧
     (∀ k, dictLookup (demoLedgerA.attach demoLedgerB).events_data k =
       optOr (dictLookup demoLedgerB.events_data k)
         (dictLookup demoLedgerA.events_data k)) ∧
     (demoLedgerA.attach demoLedgerB).hostname = demoLedgerA.hostname ∧
     (demoLedgerA.attach demoLedgerB).uid = demoLedgerA.uid) :=
  ⟨by decide, by decide,
   claim_C7_attach_union demoLedgerA demoLedgerB (by decide) (by decide)⟩

/-- C10: `attach` leaves the other ledger entirely unchanged.  On a heap
of ledger objects, running `self.attach(other)` writes only to `self`'s
reference (the method body assigns only `self.events_metadata` and
`self.events_data`), so the object at `other`'s reference — its
`events_metadata`, `events_data`, `hostname` and `uid` — is the same
before and after the call. -/
theorem claim_C10_attach_frame (h : ObjHeap) (a b : String) (hab : a ≠ b) :
    dictLookup (attachRef h a b) b = dictLookup h b := by
  unfold attachRef
  cases hs : dictLookup h a with
  | none =>
    cases ho : dictLookup h b with
    | none => rfl
    | some o => rfl
  | some s =>
    cases ho : dictLookup h b with
    | none => first | rfl | exact ho
    | some o =>
      rw [dictLookup_dictSet, if_neg hab]
      first | rfl | exact ho

/-- Witness for C10 on a concrete two-object heap. -/
theorem claim_C10_witness :
    ("self1" : String) ≠ "other1" ∧
    dictLookup (attachRef
        [("self1", EventMonitor.init "hA" "uA"),
         ("other1", EventMonitor.init "hB" "uB")] "self1" "other1") "other1" =
      dictLookup
        [("self1", EventMonitor.init "hA" "uA"),
         ("other1", EventMonitor.init "hB" "uB")] "other1" :=
  ⟨by decide,
   claim_C10_attach_frame
     [("self1", EventMonitor.init "hA" "uA"),
      ("other1", EventMonitor.init "hB" "uB")] "self1" "other1" (by decide)⟩

/-! ## Sampling loop lemmas -/

theorem monitoringTick_ok (interval : ℚ) (mm : MonitorMetrics)
    (sample : Dict ℚ) (t0 t1 : ℚ) (hs : hasRequiredKeys sample = true) :
    ∃ c me d io r w,
      monitoringTick interval mm sample t0 t1 =
        Except.ok
          ({ cpu := mm.cpu ++ [c], memory := mm.memory ++ [me],
             disk := mm.disk ++ [d], iops := mm.iops ++ [io],
             read := mm.read ++ [r], write := mm.write ++ [w],
             time := mm.time ++ [t0] },
           if interval - (t1 - t0) > 0 then some (interval - (t1 - t0))
           else none) := by
  simp only [hasRequiredKeys, requiredKeys, List.all_cons, List.all_nil,
    Bool.and_eq_true, Bool.and_true, dictContains] at hs
  obtain ⟨hc, hm, hd, hio, hr, hw⟩ := hs
  obtain ⟨c, hc⟩ := Option.isSome_iff_exists.1 hc
  obtain ⟨me, hm⟩ := Option.isSome_iff_exists.1 hm
  obtain ⟨d, hd⟩ := Option.isSome_iff_exists.1 hd
  obtain ⟨io, hio⟩ := Option.isSome_iff_exists.1 hio
  obtain ⟨r, hr⟩ := Option.isSome_iff_exists.1 hr
  obtain ⟨w, hw⟩ := Option.isSome_iff_exists.1 hw
  refine ⟨c, me, d, io, r, w, ?_⟩
  have l1 : dictLookup (dictSet sample "time" t0) "cpu" = some c := by
    rw [dictLookup_dictSet, if_neg (by decide)]
    exact hc
  have l2 : dictLookup (dictSet sample "time" t0) "memory" = some me := by
    rw [dictLookup_dictSet, if_neg (by decide)]
    exact hm
  have l3 : dictLookup (dictSet sample "time" t0) "disk" = some d := by
    rw [dictLookup_dictSet, if_neg (by decide)]
    exact hd
  have l4 : dictLookup (dictSet sample "time" t0) "iops" = some io := by
    rw [dictLookup_dictSet, if_neg (by decide)]
    exact hio
  have l5 : dictLookup (dictSet sample "time" t0) "read" = some r := by
    rw [dictLookup_dictSet, if_neg (by decide)]
    exact hr
  have l6 : dictLookup (dictSet sample "time" t0) "write" = some w := by
    rw [dictLookup_dictSet, if_neg (by decide)]
    exact hw
  have l7 : dictLookup (dictSet sample "time" t0) "time" = some t0 := by
    rw [dictLookup_dictSet, if_pos rfl]
  unfold monitoringTick
  dsimp only
  rw [l1, l2, l3, l4, l5, l6, l7]
  rfl

theorem runTicks_channels (interval : ℚ) (ticks : List TickInput) :
    ∀ (mm0 : MonitorMetrics) (n : ℕ), channelsLen mm0 n →
      (∀ tk ∈ ticks, hasRequiredKeys tk.sample = true) →
      ∃ mm', runTicks interval mm0 ticks = Except.ok mm' ∧
        channelsLen mm' (n + ticks.length) ∧
        mm'.time = mm0.time ++ ticks.map TickInput.t0 := by
  induction ticks with
  | nil =>
    intro mm0 n h0 _
    exact ⟨mm0, rfl, by simpa using h0, by simp⟩
  | cons tk rest ih =>
    intro mm0 n h0 hall
    obtain ⟨c, me, d, io, r, w, heq⟩ :=
      monitoringTick_ok interval mm0 tk.sample tk.t0 tk.t1 (hall tk (by simp))
    obtain ⟨e1, e2, e3, e4, e5, e6, e7⟩ := h0
    obtain ⟨mm', hrun, hlen, htime⟩ := ih
      { cpu := mm0.cpu ++ [c], memory := mm0.memory ++ [me],
        disk := mm0.disk ++ [d], iops := mm0.iops ++ [io],
        read := mm0.read ++ [r], write := mm0.write ++ [w],
        time := mm0.time ++ [tk.t0] }
      (n + 1)
      ⟨by simp [e1], by simp [e2], by simp [e3], by simp [e4],
       by simp [e5], by simp [e6], by simp [e7]⟩
      (fun x hx => hall x (by simp [hx]))
    refine ⟨mm', ?_, ?_, ?_⟩
    · show runTicks interval mm0 (tk :: rest) = Except.ok mm'
      unfold runTicks
      rw [heq]
      exact hrun
    · have hn : n + (tk :: rest).length = (n + 1) + rest.length := by
        simp [List.length_cons]
        omega
      rw [hn]
      exact hlen
    · rw [htime]
      simp

/-- C8: in every loop iteration the remaining sleep is computed as
`poll_interval - (t1 - t0)` (interval minus the elapsed time of the
tick), the task suspends — `some` sleep — exactly when that value is
positive, and when the tick took at least the interval the iteration
completes with no sleep and no error, so the loop proceeds immediately
to the next tick. -/
theorem claim_C8_sleep (interval : ℚ) (mm : MonitorMetrics)
    (sample : Dict ℚ) (t0 t1 : ℚ) (hs : hasRequiredKeys sample = true) :
    ∃ mm' slp, monitoringTick interval mm sample t0 t1 = Except.ok (mm', slp) ∧
      slp = (if interval - (t1 - t0) > 0 then some (interval - (t1 - t0))
             else none) ∧
      (∀ s, slp = some s → 0 < s ∧ s = interval - (t1 - t0)) ∧
      (interval ≤ t1 - t0 → slp = none) := by
  obtain ⟨c, me, d, io, r, w, heq⟩ := monitoringTick_ok interval mm sample t0 t1 hs
  refine ⟨_, _, heq, rfl, ?_, ?_⟩
  · intro s hsl
    by_cases hpos : interval - (t1 - t0) > 0
    · rw [if_pos hpos] at hsl
      cases hsl
      exact ⟨hpos, rfl⟩
    · rw [if_neg hpos] at hsl
      cases hsl
  · intro hle
    have hng : ¬ (interval - (t1 - t0) > 0) := not_lt.2 (sub_nonpos.2 hle)
    rw [if_neg hng]

/-- Witness for C8 on a tick that took 7 time units against a 5-unit
interval: no sleep, no crash. -/
theorem claim_C8_witness :
    hasRequiredKeys
      [("cpu", (1 : ℚ)), ("memory", 2), ("disk", 3), ("iops", 4),
       ("read", 5), ("write", 6)] = true ∧
    (∃ mm' slp, monitoringTick 5 ⟨[], [], [], [], [], [], []⟩
        [("cpu", (1 : ℚ)), ("memory", 2), ("disk", 3), ("iops", 4),
         ("read", 5), ("write", 6)] 0 7 = Except.ok (mm', slp) ∧
      slp = (if (5 : ℚ) - (7 - 0) > 0 then some ((5 : ℚ) - (7 - 0))
             else none) ∧
      (∀ s, slp = some s → 0 < s ∧ s = (5 : ℚ) - (7 - 0)) ∧
      ((5 : ℚ) ≤ 7 - 0 → slp = none)) :=
  ⟨by decide,
   claim_C8_sleep 5 ⟨[], [], [], [], [], [], []⟩
     [("cpu", (1 : ℚ)), ("memory", 2), ("disk", 3), ("iops", 4),
      ("read", 5), ("write", 6)] 0 7 (by decide)⟩

/-- C9: starting from a freshly constructed `ResourceMonitor` (all
channels empty), running the sampling loop for any number of ticks whose
collector samples contain every required channel key succeeds, leaves
all seven channels with equal length — one appended sample per channel
per tick — and the `time` channel holds exactly the ticks' start
times. -/
theorem claim_C9_channel_alignment (interval : ℚ) (hostname uid : String)
    (cm : Dict PyVal) (ticks : List TickInput)
    (hall : ∀ tk ∈ ticks, hasRequiredKeys tk.sample = true) :
    ∃ mm', runTicks interval
        (ResourceMonitor.init hostname uid cm).monitor_metrics ticks =
        Except.ok mm' ∧
      channelsLen mm' ticks.length ∧
      mm'.time = ticks.map TickInput.t0 := by
  have h0 : channelsLen (ResourceMonitor.init hostname uid cm).monitor_metrics 0 :=
    ⟨rfl, rfl, rfl, rfl, rfl, rfl, rfl⟩
  obtain ⟨mm', h1, h2, h3⟩ := runTicks_channels interval ticks _ 0 h0 hall
  exact ⟨mm', h1, by simpa using h2, by simpa using h3⟩

/-- Witness for C9 on two concrete ticks. -/
theorem claim_C9_witness :
    (∀ tk ∈ [TickInput.mk
        [("cpu", (1 : ℚ)), ("memory", 2), ("disk", 3), ("iops", 4),
         ("read", 5), ("write", 6)] 10 11,
      TickInput.mk
        [("cpu", (2 : ℚ)), ("memory", 3), ("disk", 4), ("iops", 5),
         ("read", 6), ("write", 7)] 15 16],
      hasRequiredKeys tk.sample = true) ∧
    (∃ mm', runTicks 5
        (ResourceMonitor.init "h" "u" []).monitor_metrics
        [TickInput.mk
          [("cpu", (1 : ℚ)), ("memory", 2), ("disk", 3), ("iops", 4),
           ("read", 5), ("write", 6)] 10 11,
         TickInput.mk
          [("cpu", (2 : ℚ)), ("memory", 3), ("disk", 4), ("iops", 5),
           ("read", 6), ("write", 7)] 15 16] = Except.ok mm' ∧
      channelsLen mm' 2 ∧
      mm'.time = [10, 15]) :=
  ⟨by decide,
   claim_C9_channel_alignment 5 "h" "u" []
     [TickInput.mk
       [("cpu", (1 : ℚ)), ("memory", 2), ("disk", 3), ("iops", 4),
        ("read", 5), ("write", 6)] 10 11,
      TickInput.mk
       [("cpu", (2 : ℚ)), ("memory", 3), ("disk", 4), ("iops", 5),
        ("read", 6), ("write", 7)] 15 16] (by decide)⟩
